import Mathlib

/-!
Shallow embedding of two DeepPavlov components and proofs about them:

* `deeppavlov/models/classifiers/cos_sim_classifier.py`
  (`CosineSimilarityClassifier.fit` / `__call__`), and
* `deeppavlov/models/ranking/chitchat_reranker.py`
  (`ChitChatReRanker.__call__`).

Numeric values are modelled by real numbers (exact arithmetic in place of
floats), vectors by `List ℝ`, matrices by `List (List ℝ)`.  Python code that
can raise is modelled with `Except Err`; the `Err` constructors name the
Python exception class raised at the corresponding program point.
-/

noncomputable section

/-- Python exception classes that the modelled code can raise. -/
inductive Err where
  | valueError
  | typeError
  | indexError
  | attributeError
  | notImplementedError
  | zeroDivisionError
  deriving DecidableEq

/-- A vector as received by `fit`/`__call__`: a dense `np.ndarray` row, a
`scipy.sparse.csr_matrix` row, the `None` empty sentinel, or a value of any
other (unsupported) type.  Dense and sparse rows carry the same mathematical
content; the tag records which `isinstance` check they satisfy. -/
inductive Vec where
  | dense (v : List ℝ)
  | sparse (v : List ℝ)
  | empty
  | other

def Vec.isDense : Vec → Bool
  | .dense _ => true
  | _ => false

def Vec.isSparse : Vec → Bool
  | .sparse _ => true
  | _ => false

/-- The numeric row carried by a dense or sparse vector. -/
def Vec.row : Vec → Option (List ℝ)
  | .dense v => some v
  | .sparse v => some v
  | _ => none

/-- The mutable attributes of a `CosineSimilarityClassifier` instance.
`x_train_features` / `y_train` are `none` while the attribute is unset
(reading an unset attribute raises `AttributeError`). -/
structure ClfState where
  top_n : Nat
  x_train_features : Option (List (List ℝ))
  y_train : Option (List String)

/-- Dot product of two rows (`q_vects.dot(x_train_features.T)` entry). -/
def dot (u v : List ℝ) : ℝ := (List.zipWith (fun a b => a * b) u v).sum

def sumSq (v : List ℝ) : ℝ := (v.map (fun x => x * x)).sum

/-- Euclidean norm of one row (`linalg.norm(row)` / `sparse_norm(row)`). -/
def norm2 (v : List ℝ) : ℝ := Real.sqrt (sumSq v)

/-- Model of `linalg.norm(q_vects)` / `sparse_norm(q_vects)` with no `axis`:
the Frobenius norm of the whole query matrix. -/
def frobNorm (m : List (List ℝ)) : ℝ := Real.sqrt ((m.map sumSq).sum)

/-- Lines 64-70 of `cos_sim_classifier.py`: the similarity matrix
`q_vects.dot(x_train_features.T) / (norm(q_vects) * norm(x_train_features, axis=1))`.
The denominator uses the Frobenius norm of the whole query batch (no `axis=`
is passed for `q_vects`), times the per-row norms of the training matrix. -/
def codeCosSim (qs xt : List (List ℝ)) : List (List ℝ) :=
  qs.map (fun q => xt.map (fun t => dot q t / (frobNorm qs * norm2 t)))

/-- The spec's definition of cosine similarity:
`sim(q, t) = (q·t) / (‖q‖ · ‖t‖)` with the norm of the single query `q`. -/
def cosineSim (q t : List ℝ) : ℝ := dot q t / (norm2 q * norm2 t)

/-- Model of `np.unique(self.y_train)`: the distinct labels in ascending lexicographic
(code point) order; `a.data ≤ b.data` on the character lists is the string
order numpy uses. -/
def uniqueLabels (ys : List String) : List String :=
  List.insertionSort (fun a b => ¬ (b.data < a.data)) ys.dedup

/-- The train-set positions carrying a given label
(`[i for i, value in enumerate(self.y_train) if value == label]`). -/
def labelIdxs (ys : List String) (lab : String) : List Nat :=
  (List.range ys.length).filter (fun j => ys.getD j "" == lab)

/-- Model of `np.max(..., axis=0)` over a selection of rows, evaluated entrywise:
maximum of a nonempty list of reals (`0` on `[]`, which `np.max` would
reject; it is only applied to nonempty selections below). -/
def listMax : List ℝ → ℝ
  | [] => 0
  | x :: xs => xs.foldl max x

/-- Lines 77-80: the per-query, per-distinct-label score matrix; entry
`(q, l)` is the max of the similarities between query `q` and the training
vectors whose label is the `l`-th distinct label. -/
def labelsScores (cos : List (List ℝ)) (ys : List String) : List (List ℝ) :=
  cos.map (fun row =>
    (uniqueLabels ys).map (fun lab =>
      listMax ((labelIdxs ys lab).map (fun j => row.getD j 0))))

/-- Line 83: `labels_scores / np.sum(labels_scores, axis=1)`.
The divisor has shape `(nq,)` while the dividend has shape `(nq, nl)`, so
numpy broadcasting applies: for `nq = 1` every entry is divided by the single
row sum; for `nl = nq` entry `(i, l)` is divided by the sum of row `l` (not
row `i`); for `nl = 1 < nq` the result blows up to shape `(nq, nq)`; any
other shape combination raises a broadcast `ValueError`. -/
def normalizeScores (m : List (List ℝ)) : Except Err (List (List ℝ)) :=
  let sums := m.map (fun row => row.sum)
  let nq := m.length
  let nl := (m.getD 0 []).length
  if nq = 1 then
    Except.ok (m.map (fun row => row.map (fun x => x / sums.getD 0 0)))
  else if nl = nq then
    Except.ok (m.map (fun row => (List.range nl).map (fun l => row.getD l 0 / sums.getD l 0)))
  else if nl = 1 then
    Except.ok ((List.range nq).map (fun i => (List.range nq).map (fun l =>
      (m.getD i []).getD 0 0 / sums.getD l 0)))
  else Except.error Err.valueError

/-- Sort key used to model `np.argsort` on one row: ascending by value, ties
by ascending position (numpy's sort is stable on the short rows at hand). -/
def keyLE (row : List ℝ) (i j : Nat) : Prop :=
  row.getD i 0 < row.getD j 0 ∨ (row.getD i 0 = row.getD j 0 ∧ i ≤ j)

open Classical in
/-- Model of `np.argsort(row)`: the positions of `row` sorted by `keyLE`. -/
def argsortR (row : List ℝ) : List Nat :=
  List.insertionSort (keyLE row) (List.range row.length)

/-- Python slice `l[-k:]` for `k = top_n`: the last `min k (len l)` entries,
except that `k = 0` gives `l[0:] = l` (`-0 == 0`). -/
def sliceNeg (l : List α) (k : Nat) : List α :=
  if k = 0 then l else l.drop (l.length - k)

/-- Line 84 plus the `[::-1]` reversal of lines 90-91: the label positions
selected for one query, best first. -/
def topIds (row : List ℝ) (top_n : Nat) : List Nat :=
  (sliceNeg (argsortR row) top_n).reverse

/-- Model of `np.round(x, 2)` (round-half-up here; the half-even difference
on exact `.005` ties is immaterial to the claims). -/
def round2 (x : ℝ) : ℝ := (round (x * 100) : ℤ) / 100

/-- Lines 76-93 of `__call__` applied to an already-built similarity matrix:
aggregate per distinct label, normalize, select `top_n` positions per row and
emit `(labels, rounded scores)`.  `y_train` longer than the training matrix
makes line 80 index a missing column (`IndexError`); a selected position
outside `y_labels` makes line 90 raise `IndexError`. -/
def classifyCore (qrows xt : List (List ℝ)) (ytr : List String) (top_n : Nat) :
    Except Err (List (List String) × List (List ℝ)) :=
  if xt.length < ytr.length then Except.error Err.indexError
  else
    match normalizeScores (labelsScores (codeCosSim qrows xt) ytr) with
    | Except.error e => Except.error e
    | Except.ok norm =>
      if (norm.map (fun row => topIds row top_n)).all
          (fun ids => ids.all (fun id => id < (uniqueLabels ytr).length)) then
        Except.ok
          (norm.map (fun row => (topIds row top_n).map (fun id => (uniqueLabels ytr).getD id "")),
           norm.map (fun row => (topIds row top_n).map (fun id => round2 (row.getD id 0))))
      else Except.error Err.indexError

/-- Lines 71-72 then 76-93 for a batch of `None` queries:
`cos_similarities = np.zeros(len(x_train_features))` is 1-dimensional, so the
2-d indexing `cos_similarities[:, i]` on line 80 raises `IndexError` as soon
as there is a distinct label to loop over.  If `y_train` is empty the loop
body never runs and the `(n_train, 0)` empty score matrix flows on: with one
training row the call returns one empty answer/score pair (with zero rows, an
empty batch); with more rows the division on line 83 fails to broadcast. -/
def noneBranch (xt : List (List ℝ)) (ytr : List String) :
    Except Err (List (List String) × List (List ℝ)) :=
  if ytr.isEmpty then
    if xt.length = 0 then Except.ok ([], [])
    else if xt.length = 1 then Except.ok ([[]], [[]])
    else Except.error Err.valueError
  else Except.error Err.indexError

/-- Model of `scipy.sparse.vstack` / `np.vstack` over the input vectors: every element
must satisfy the block predicate (sparse `vstack` also coerces dense rows;
`np.vstack` needs dense rows), and all rows must share one width, else the
stacking call itself raises. -/
def stackRows (xs : List Vec) (supported : Vec → Bool) : Except Err (List (List ℝ)) :=
  if xs.all supported then
    if (xs.map (fun v => (v.row).getD [])).all
        (fun r => r.length = ((xs.map (fun v => (v.row).getD [])).getD 0 []).length) then
      Except.ok (xs.map (fun v => (v.row).getD []))
    else Except.error Err.valueError
  else Except.error Err.typeError

/-- Model of `CosineSimilarityClassifier.fit` (lines 95-115) as a state transition:
the result is the updated attribute state together with the exception raised,
if any.  The type dispatch looks only at `x_train_vects[0]`; all raises occur
before either attribute assignment, and on success `x_train_features` is
assigned first and `y_train` directly afterwards. -/
def fit (st : ClfState) (xs : List Vec) (y : List String) : ClfState × Option Err :=
  if xs.length ≠ 0 then
    match xs.getD 0 Vec.other with
    | Vec.sparse _ =>
      match stackRows xs (fun v => v.isSparse || v.isDense) with
      | Except.ok m => ({ st with x_train_features := some m, y_train := some y }, none)
      | Except.error e => (st, some e)
    | Vec.dense _ =>
      match stackRows xs (fun v => v.isDense) with
      | Except.ok m => ({ st with x_train_features := some m, y_train := some y }, none)
      | Except.error e => (st, some e)
    | _ => (st, some Err.notImplementedError)
  else (st, some Err.valueError)

/-- Model of `CosineSimilarityClassifier.__call__` (lines 54-93).  The branch is picked
by the type of `q_vects[0]` alone (an empty batch makes that access raise
`IndexError`); the stored attributes are read only inside the branch. -/
def classify (st : ClfState) (qs : List Vec) :
    Except Err (List (List String) × List (List ℝ)) :=
  match qs[0]? with
  | none => Except.error Err.indexError
  | some (Vec.sparse _) =>
    match st.x_train_features with
    | none => Except.error Err.attributeError
    | some xt =>
      match stackRows qs (fun v => v.isSparse) with
      | Except.error e => Except.error e
      | Except.ok qrows =>
        match st.y_train with
        | none => Except.error Err.attributeError
        | some ytr => classifyCore qrows xt ytr st.top_n
  | some (Vec.dense _) =>
    match st.x_train_features with
    | none => Except.error Err.attributeError
    | some xt =>
      match stackRows qs (fun v => v.isDense) with
      | Except.error e => Except.error e
      | Except.ok qrows =>
        match st.y_train with
        | none => Except.error Err.attributeError
        | some ytr => classifyCore qrows xt ytr st.top_n
  | some Vec.empty =>
    match st.x_train_features with
    | none => Except.error Err.attributeError
    | some xt =>
      match st.y_train with
      | none => Except.error Err.attributeError
      | some ytr => noneBranch xt ytr
  | some Vec.other => Except.error Err.notImplementedError

/-- Spec-side quantity for one query: the best cosine similarity among the
training vectors carrying a given label (spec §4.1 step 2). -/
def specLabelMax (q : List ℝ) (xt : List (List ℝ)) (ytr : List String) (lab : String) : ℝ :=
  listMax ((labelIdxs ytr lab).map (fun j => cosineSim q (xt.getD j [])))

/-- Spec-side normalized per-label scores for one query (spec §4.1 step 3):
each per-label max cosine similarity divided by their sum. -/
def specScores (q : List ℝ) (xt : List (List ℝ)) (ytr : List String) : List ℝ :=
  (uniqueLabels ytr).map (fun lab =>
    specLabelMax q xt ytr lab / ((uniqueLabels ytr).map (specLabelMax q xt ytr)).sum)

/-- Configuration of a `ChitChatReRanker` instance. -/
structure RerankCfg where
  num_context_turns : Nat
  lambda_coeff : ℝ

/-- Lines 53-57 of `chitchat_reranker.py`: cut the flat tag stream into
`len(flat) // size` consecutive groups of width `size` (any remainder is
dropped by the floor division). -/
def chunk (flat : List String) (size : Nat) : List (List String) :=
  (List.range (flat.length / size)).map (fun i => (flat.drop (i * size)).take size)

/-- Lines 72-76: candidate indices kept by the intent heuristic.  Only the
"interrogative" / "imperative" branches read the per-candidate tags (and so
only they can raise `IndexError` on a short tag list); otherwise every index
is kept. -/
def intentFilterE (last : String) (resp : List String) (n : Nat) : Except Err (List Nat) :=
  if last == "interrogative" then
    if n ≤ resp.length then
      Except.ok ((List.range n).filter (fun j =>
        resp.getD j "" == "declarative" || resp.getD j "" == "imperative"))
    else Except.error Err.indexError
  else if last == "imperative" then
    if n ≤ resp.length then
      Except.ok ((List.range n).filter (fun j => resp.getD j "" == "declarative"))
    else Except.error Err.indexError
  else Except.ok (List.range n)

/-- Lines 85-98: candidate indices kept by the sentiment heuristic.  The
default exclusion of "negative"/"skip" is always evaluated first (so the tag
list is always read), then possibly overridden by the last context turn's
sentiment. -/
def sentimentFilterE (last : String) (resp : List String) (n : Nat) : Except Err (List Nat) :=
  if n ≤ resp.length then
    Except.ok (
      if last == "negative" then
        (List.range n).filter (fun j => !(resp.getD j "" == "negative" || resp.getD j "" == "skip"))
      else if last == "neutral" then
        (List.range n).filter (fun j => resp.getD j "" == "neutral" || resp.getD j "" == "positive")
      else if last == "speech" then
        (List.range n).filter (fun j => resp.getD j "" == "speech")
      else if last == "positive" then
        (List.range n).filter (fun j => resp.getD j "" == "positive")
      else
        (List.range n).filter (fun j => !(resp.getD j "" == "negative" || resp.getD j "" == "skip")))
  else Except.error Err.indexError

/-- One comprehension `[xs[j] for j in idxs]`: every index is evaluated, so a
single out-of-range index raises `IndexError` even if later unused. -/
def buildPool (top_i : List String) (scores_i : List ℝ) (idxs : List Nat) :
    Except Err (List String × List ℝ) :=
  if idxs.all (fun j => j < top_i.length) then
    if idxs.all (fun j => j < scores_i.length) then
      Except.ok (idxs.map (fun j => top_i.getD j ""), idxs.map (fun j => scores_i.getD j 0))
    else Except.error Err.indexError
  else Except.error Err.indexError

/-- Lines 103-120: the fallback chain.  `list(set(fI).intersection(set(fS)))`
is modelled as filtering `fI` by membership in `fS` (the filter index lists
are duplicate-free ascending small integers, for which CPython's set
iteration preserves ascending order).  The final branch passes the original
candidate and score lists through unchanged. -/
def poolFor (top_i : List String) (scores_i : List ℝ) (fI fS : List Nat) :
    Except Err (List String × List ℝ) :=
  if fI.filter (fun j => fS.contains j) ≠ [] then
    buildPool top_i scores_i (fI.filter (fun j => fS.contains j))
  else if fS ≠ [] then buildPool top_i scores_i fS
  else if fI ≠ [] then buildPool top_i scores_i fI
  else Except.ok (top_i, scores_i)

/-- Line 124: the unnormalized sampling weights `np.exp(-k / lambda_coeff)`
for pool positions `k = 0, …, n-1`. -/
def samplingWeights (n : Nat) (lam : ℝ) : List ℝ :=
  (List.range n).map (fun k : Nat => Real.exp (-(k : ℝ) / lam))

/-- Line 125: the weights normalized by their sum into the distribution
passed to `np.random.choice` as `p`. -/
def normWeights (n : Nat) (lam : ℝ) : List ℝ :=
  (samplingWeights n lam).map (fun w => w / (samplingWeights n lam).sum)

/-- Lines 62-132 for one batch element.  `choice` stands for the index drawn
by `np.random.choice` (every pool position has positive weight, so any value
is possible; it is reduced mod the support size).  `np.random.choice` on an
empty candidate pool raises `ValueError`. -/
def processElement (cfg : RerankCfg) (choice : Nat) (top_i : List String) (scores_i : List ℝ)
    (sentiment_i intents_i : List String) : Except Err (String × ℝ) :=
  match intents_i[cfg.num_context_turns - 1]? with
  | none => Except.error Err.indexError
  | some last_intent =>
    match intentFilterE last_intent (intents_i.drop cfg.num_context_turns) top_i.length with
    | Except.error e => Except.error e
    | Except.ok fI =>
      match sentiment_i[cfg.num_context_turns - 1]? with
      | none => Except.error Err.indexError
      | some last_sent =>
        match sentimentFilterE last_sent (sentiment_i.drop cfg.num_context_turns) top_i.length with
        | Except.error e => Except.error e
        | Except.ok fS =>
          match poolFor top_i scores_i fI fS with
          | Except.error e => Except.error e
          | Except.ok pool =>
            if (normWeights pool.1.length cfg.lambda_coeff).length = 0 then
              Except.error Err.valueError
            else
              match pool.1[choice % (normWeights pool.1.length cfg.lambda_coeff).length]?,
                  pool.2[choice % (normWeights pool.1.length cfg.lambda_coeff).length]? with
              | some r, some s => Except.ok (r, s)
              | _, _ => Except.error Err.indexError

/-- The `for i in range(len(top_responses_batch))` loop, threaded over the
list of loop indices. -/
def runBatch (cfg : RerankCfg) (choice : Nat → Nat) (top : List (List String))
    (scoresB : List (List ℝ)) (rS rI : List (List String)) :
    List Nat → Except Err (List (String × ℝ))
  | [] => Except.ok []
  | i :: rest =>
    match rI[i]? with
    | none => Except.error Err.indexError
    | some ints_i =>
      match top[i]?, rS[i]?, scoresB[i]? with
      | some top_i, some sent_i, some scores_i =>
        match processElement cfg (choice i) top_i scores_i sent_i ints_i with
        | Except.error e => Except.error e
        | Except.ok pr =>
          match runBatch cfg choice top scoresB rS rI rest with
          | Except.error e => Except.error e
          | Except.ok prs => Except.ok (pr :: prs)
      | _, _, _ => Except.error Err.indexError

/-- Model of `ChitChatReRanker.__call__` (lines 34-134).  The segment width is computed
once from the first element's candidate count (an empty batch raises
`IndexError`, a zero width would make the floor division on line 55 raise
`ZeroDivisionError`), the tag streams are reshaped, every batch element is
processed in order, and the chosen responses and scores are returned as two
parallel lists. -/
def rerank (cfg : RerankCfg) (choice : Nat → Nat) (top : List (List String))
    (scoresB : List (List ℝ)) (sentiment intents : List String) :
    Except Err (List String × List ℝ) :=
  match top[0]? with
  | none => Except.error Err.indexError
  | some first =>
    if cfg.num_context_turns + first.length = 0 then Except.error Err.zeroDivisionError
    else
      match runBatch cfg choice top scoresB
          (chunk sentiment (cfg.num_context_turns + first.length))
          (chunk intents (cfg.num_context_turns + first.length))
          (List.range top.length) with
      | Except.error e => Except.error e
      | Except.ok prs => Except.ok (prs.map Prod.fst, prs.map Prod.snd)

/-! ### Helper lemmas -/

theorem getD_map_range {β : Type} (f : Nat → β) (d : β) {k n : Nat} (h : k < n) :
    ((List.range n).map f).getD k d = f k := by
  rw [List.getD_eq_getElem?_getD, List.getElem?_eq_getElem (by simpa using h)]
  simp

theorem getD_map_of_lt {α β : Type} (f : α → β) (l : List α) (d : β) (d' : α) {k : Nat}
    (h : k < l.length) : (l.map f).getD k d = f (l.getD k d') := by
  rw [List.getD_eq_getElem?_getD, List.getElem?_eq_getElem (by simpa using h),
    List.getElem_map, List.getD_eq_getElem?_getD, List.getElem?_eq_getElem h]
  rfl

theorem sum_map_div {l : List ℝ} {c : ℝ} : (l.map (fun x => x / c)).sum = l.sum / c := by
  induction l with
  | nil => simp
  | cons a t ih => simp [ih, add_div]

@[simp] theorem samplingWeights_length (n : Nat) (lam : ℝ) :
    (samplingWeights n lam).length = n := by
  rw [samplingWeights, List.length_map, List.length_range]

@[simp] theorem normWeights_length (n : Nat) (lam : ℝ) :
    (normWeights n lam).length = n := by
  rw [normWeights, List.length_map, samplingWeights_length]

theorem samplingWeights_sum_pos {n : Nat} (lam : ℝ) (hn : 1 ≤ n) :
    0 < (samplingWeights n lam).sum := by
  apply List.sum_pos
  · intro x hx
    rw [samplingWeights] at hx
    simp only [List.mem_map] at hx
    obtain ⟨k, _, rfl⟩ := hx
    exact Real.exp_pos _
  · intro hnil
    have := congrArg List.length hnil
    rw [samplingWeights_length] at this
    simp at this
    omega

/-! ### Claim C4 -/

/-- C4: for every pool of size `n ≥ 1` and every `lambda_coeff > 0`, the
reranker's sampling step gives pool position `k` the unnormalized weight
`exp(-k / lambda_coeff)`; the normalized weights sum to `1`, and for `n ≥ 3`
position `0` has strictly larger probability than position `2`. -/
theorem c4_sampling_weights (n : Nat) (lam : ℝ) (hn : 1 ≤ n) (hlam : 0 < lam) :
    (∀ k, k < n → (samplingWeights n lam).getD k 0 = Real.exp (-(k : ℝ) / lam)) ∧
    (normWeights n lam).sum = 1 ∧
    (3 ≤ n → (normWeights n lam).getD 2 0 < (normWeights n lam).getD 0 0) := by
  have hS : 0 < (samplingWeights n lam).sum := samplingWeights_sum_pos lam hn
  have hgd : ∀ k, k < n → (samplingWeights n lam).getD k 0 = Real.exp (-(k : ℝ) / lam) := by
    intro k hk
    rw [samplingWeights]
    exact getD_map_range _ _ hk
  refine ⟨hgd, ?_, ?_⟩
  · rw [normWeights, sum_map_div, div_self (ne_of_gt hS)]
  · intro h3
    have egd : ∀ k, k < n →
        (normWeights n lam).getD k 0 = (samplingWeights n lam).getD k 0 / (samplingWeights n lam).sum := by
      intro k hk
      rw [normWeights]
      exact getD_map_of_lt _ _ _ 0 (by rw [samplingWeights_length]; omega)
    rw [egd 2 (by omega), egd 0 (by omega), hgd 2 (by omega), hgd 0 (by omega)]
    have h2 : (0 : ℝ) < 2 / lam := by positivity
    have h1 : Real.exp (-((2 : ℕ) : ℝ) / lam) < Real.exp (-((0 : ℕ) : ℝ) / lam) := by
      apply Real.exp_lt_exp.mpr
      push_cast
      rw [neg_div, neg_div, zero_div, neg_zero]
      linarith
    gcongr

/-- Witness for C4 at `n = 3`, `lambda_coeff = 10`. -/
theorem c4_sampling_weights_witness :
    ((1 ≤ 3 ∧ (0 : ℝ) < 10)) ∧
    ((∀ k, k < 3 → (samplingWeights 3 10).getD k 0 = Real.exp (-(k : ℝ) / 10)) ∧
     (normWeights 3 10).sum = 1 ∧
     (3 ≤ 3 → (normWeights 3 10).getD 2 0 < (normWeights 3 10).getD 0 0)) :=
  ⟨⟨by norm_num, by norm_num⟩, c4_sampling_weights 3 10 (by norm_num) (by norm_num)⟩

/-! ### Claim C10 -/

/-- C10: whenever `fit` raises (empty input, unsupported first vector, or a
failing stack), both stored attributes are unchanged — every raise happens
before either assignment — so the classifier classifies exactly as before. -/
theorem c10_fit_failure_preserves_state (st st' : ClfState) (xs : List Vec) (y : List String)
    (e : Err) (h : fit st xs y = (st', some e)) :
    st' = st ∧ ∀ qs, classify st' qs = classify st qs := by
  have hst : st' = st := by
    unfold fit at h
    split at h
    · split at h
      · split at h
        · simp only [Prod.mk.injEq] at h
          exact absurd h.2 (by simp)
        · simp only [Prod.mk.injEq] at h
          exact h.1.symm
      · split at h
        · simp only [Prod.mk.injEq] at h
          exact absurd h.2 (by simp)
        · simp only [Prod.mk.injEq] at h
          exact h.1.symm
      · simp only [Prod.mk.injEq] at h
        exact h.1.symm
    · simp only [Prod.mk.injEq] at h
      exact h.1.symm
  exact ⟨hst, fun qs => by rw [hst]⟩

/-- Witness for C10: fitting with an empty vector sequence fails and leaves
the fresh (unfitted) state untouched. -/
theorem c10_fit_failure_preserves_state_witness :
    fit ⟨1, none, none⟩ [] [] = (⟨1, none, none⟩, some Err.valueError) ∧
    ((⟨1, none, none⟩ : ClfState) = ⟨1, none, none⟩ ∧
      ∀ qs, classify ⟨1, none, none⟩ qs = classify ⟨1, none, none⟩ qs) :=
  ⟨rfl, c10_fit_failure_preserves_state ⟨1, none, none⟩ ⟨1, none, none⟩ [] [] Err.valueError rfl⟩

/-! ### Claim C7 -/

/-- Stacking raises only `TypeError` or `ValueError`, never the
unsupported-type `NotImplementedError`. -/
theorem stackRows_ne_notImpl (xs : List Vec) (p : Vec → Bool) :
    stackRows xs p ≠ Except.error Err.notImplementedError := by
  unfold stackRows
  split
  · split
    · intro hcon
      cases hcon
    · intro hcon
      injection hcon with h'
      exact Err.noConfusion h'
  · intro hcon
    injection hcon with h'
    exact Err.noConfusion h'

/-- C7 counterexample: a mixed batch whose first vector is sparse is accepted
by `fit` with no unsupported-type error, and a stacked training set plus the
labels are stored — refuting "mixed types are rejected and nothing stored". -/
theorem c7_counterexample :
    fit ⟨1, none, none⟩ [Vec.sparse [1, 0], Vec.dense [0, 1]] ["A", "B"] =
      ({ top_n := 1, x_train_features := some [[1, 0], [0, 1]],
         y_train := some ["A", "B"] }, none) := rfl

/-- C7 amended: `fit` and `classify` dispatch on the first element's
representation only.  The unsupported-type error is raised exactly when the
first element is unsupported (`None` or foreign for `fit`, foreign for
`classify`); a batch whose first element is sparse or dense is never rejected
with the unsupported-type error, whatever the remaining elements are. -/
theorem c7_first_element_dispatch (st : ClfState) (xs : List Vec) (y : List String)
    (qs : List Vec) (v : List ℝ) (rest : List Vec)
    (hx : xs.getD 0 Vec.other = Vec.empty ∨ xs.getD 0 Vec.other = Vec.other)
    (hxne : xs ≠ [])
    (hq : qs[0]? = some Vec.other) :
    (fit st xs y).2 = some Err.notImplementedError ∧
    classify st qs = Except.error Err.notImplementedError ∧
    (∀ st2, fit st (Vec.sparse v :: rest) y ≠ (st2, some Err.notImplementedError)) ∧
    (∀ st2, fit st (Vec.dense v :: rest) y ≠ (st2, some Err.notImplementedError)) := by
  have hlen : xs.length ≠ 0 := by
    intro hcon
    exact hxne (List.length_eq_zero.mp hcon)
  refine ⟨?_, ?_, ?_, ?_⟩
  · unfold fit
    rw [if_pos hlen]
    rcases hx with hx | hx <;> rw [hx]
  · unfold classify
    rw [hq]
  · intro st2 hcon
    unfold fit at hcon
    rw [if_pos (by simp)] at hcon
    simp only [List.getD_cons_zero] at hcon
    cases hs : stackRows (Vec.sparse v :: rest) (fun v => v.isSparse || v.isDense) with
    | ok m =>
      rw [hs] at hcon
      injection hcon with _ h2
      exact Option.noConfusion h2
    | error e =>
      rw [hs] at hcon
      injection hcon with _ h2
      injection h2 with h3
      rw [h3] at hs
      exact stackRows_ne_notImpl _ _ hs
  · intro st2 hcon
    unfold fit at hcon
    rw [if_pos (by simp)] at hcon
    simp only [List.getD_cons_zero] at hcon
    cases hs : stackRows (Vec.dense v :: rest) (fun v => v.isDense) with
    | ok m =>
      rw [hs] at hcon
      injection hcon with _ h2
      exact Option.noConfusion h2
    | error e =>
      rw [hs] at hcon
      injection hcon with _ h2
      injection h2 with h3
      rw [h3] at hs
      exact stackRows_ne_notImpl _ _ hs

/-- Witness for C7 at concrete inputs. -/
theorem c7_first_element_dispatch_witness :
    (([Vec.empty].getD 0 Vec.other = Vec.empty ∨ [Vec.empty].getD 0 Vec.other = Vec.other) ∧
     ([Vec.empty] : List Vec) ≠ [] ∧ ([Vec.other] : List Vec)[0]? = some Vec.other) ∧
    ((fit ⟨1, none, none⟩ [Vec.empty] []).2 = some Err.notImplementedError ∧
     classify ⟨1, none, none⟩ [Vec.other] = Except.error Err.notImplementedError ∧
     (∀ st2, fit ⟨1, none, none⟩ (Vec.sparse [1] :: []) [] ≠ (st2, some Err.notImplementedError)) ∧
     (∀ st2, fit ⟨1, none, none⟩ (Vec.dense [1] :: []) [] ≠ (st2, some Err.notImplementedError))) :=
  ⟨⟨Or.inl rfl, by simp, rfl⟩,
   c7_first_element_dispatch _ _ _ _ _ _ (Or.inl rfl) (by simp) rfl⟩

/-! ### Claim C3 -/

theorem buildPool_ok_of_bounds (top_i : List String) (scores_i : List ℝ) (idxs : List Nat)
    (h1 : ∀ j ∈ idxs, j < top_i.length) (h2 : ∀ j ∈ idxs, j < scores_i.length) :
    buildPool top_i scores_i idxs =
      Except.ok (idxs.map (fun j => top_i.getD j ""), idxs.map (fun j => scores_i.getD j 0)) := by
  unfold buildPool
  rw [if_pos, if_pos]
  · rw [List.all_eq_true]
    intro j hj
    exact decide_eq_true (h2 j hj)
  · rw [List.all_eq_true]
    intro j hj
    exact decide_eq_true (h1 j hj)

theorem contains_iff_mem_nat {l : List Nat} {j : Nat} : l.contains j = true ↔ j ∈ l :=
  List.elem_iff

/-- C3: the sampling pool of a batch element follows the priority chain
intersection / sentiment-only / intent-only / full candidate list; when the
two filtered index sets are disjoint and the sentiment set is non-empty the
pool is exactly the sentiment-filtered candidates; and for a non-empty
original candidate list the chosen pool is never empty. -/
theorem c3_fallback_chain (top_i : List String) (scores_i : List ℝ) (fI fS : List Nat)
    (hn : top_i ≠ [])
    (hI : ∀ j ∈ fI, j < top_i.length ∧ j < scores_i.length)
    (hS : ∀ j ∈ fS, j < top_i.length ∧ j < scores_i.length) :
    ∃ cs ss, poolFor top_i scores_i fI fS = Except.ok (cs, ss) ∧ cs ≠ [] ∧
      ((∃ j ∈ fI, j ∈ fS) →
        cs = (fI.filter (fun j => fS.contains j)).map (fun j => top_i.getD j "") ∧
        ss = (fI.filter (fun j => fS.contains j)).map (fun j => scores_i.getD j 0)) ∧
      ((∀ j ∈ fI, j ∉ fS) → fS ≠ [] →
        cs = fS.map (fun j => top_i.getD j "") ∧ ss = fS.map (fun j => scores_i.getD j 0)) ∧
      ((∀ j ∈ fI, j ∉ fS) → fS = [] → fI ≠ [] →
        cs = fI.map (fun j => top_i.getD j "") ∧ ss = fI.map (fun j => scores_i.getD j 0)) ∧
      (fI = [] → fS = [] → cs = top_i ∧ ss = scores_i) := by
  by_cases hidx : fI.filter (fun j => fS.contains j) = []
  · have hdisj : ∀ j ∈ fI, j ∉ fS := by
      intro j hj hmem
      have : j ∈ fI.filter (fun j => fS.contains j) :=
        List.mem_filter.mpr ⟨hj, contains_iff_mem_nat.mpr hmem⟩
      rw [hidx] at this
      cases this
    by_cases hfS : fS = []
    · by_cases hfI : fI = []
      · refine ⟨top_i, scores_i, ?_, hn, ?_, ?_, ?_, ?_⟩
        · unfold poolFor
          rw [if_neg (not_ne_iff.mpr hidx), if_neg (not_ne_iff.mpr hfS), if_neg (not_ne_iff.mpr hfI)]
        · rintro ⟨j, hj, _⟩
          rw [hfI] at hj
          cases hj
        · intro _ hcon
          exact absurd hfS hcon
        · intro _ _ hcon
          exact absurd hfI hcon
        · intro _ _
          exact ⟨rfl, rfl⟩
      · refine ⟨fI.map (fun j => top_i.getD j ""), fI.map (fun j => scores_i.getD j 0), ?_, ?_, ?_, ?_, ?_, ?_⟩
        · unfold poolFor
          rw [if_neg (not_ne_iff.mpr hidx), if_neg (not_ne_iff.mpr hfS), if_pos hfI]
          exact buildPool_ok_of_bounds _ _ _ (fun j hj => (hI j hj).1) (fun j hj => (hI j hj).2)
        · rw [ne_eq, List.map_eq_nil_iff]
          exact hfI
        · rintro ⟨j, hj, hmem⟩
          exact absurd hmem (hdisj j hj)
        · intro _ hcon
          exact absurd hfS hcon
        · intro _ _ _
          exact ⟨rfl, rfl⟩
        · intro hcon
          exact absurd hcon hfI
    · refine ⟨fS.map (fun j => top_i.getD j ""), fS.map (fun j => scores_i.getD j 0), ?_, ?_, ?_, ?_, ?_, ?_⟩
      · unfold poolFor
        rw [if_neg (not_ne_iff.mpr hidx), if_pos hfS]
        exact buildPool_ok_of_bounds _ _ _ (fun j hj => (hS j hj).1) (fun j hj => (hS j hj).2)
      · rw [ne_eq, List.map_eq_nil_iff]
        exact hfS
      · rintro ⟨j, hj, hmem⟩
        exact absurd hmem (hdisj j hj)
      · intro _ _
        exact ⟨rfl, rfl⟩
      · intro _ hcon _
        exact absurd hcon hfS
      · intro _ hcon
        exact absurd hcon hfS
  · have hsub : ∀ j ∈ fI.filter (fun j => fS.contains j), j ∈ fI := by
      intro j hj
      exact (List.mem_filter.mp hj).1
    refine ⟨(fI.filter (fun j => fS.contains j)).map (fun j => top_i.getD j ""),
            (fI.filter (fun j => fS.contains j)).map (fun j => scores_i.getD j 0), ?_, ?_, ?_, ?_, ?_, ?_⟩
    · unfold poolFor
      rw [if_pos hidx]
      exact buildPool_ok_of_bounds _ _ _
        (fun j hj => (hI j (hsub j hj)).1) (fun j hj => (hI j (hsub j hj)).2)
    · rw [ne_eq, List.map_eq_nil_iff]
      exact hidx
    · intro _
      exact ⟨rfl, rfl⟩
    · intro hdisj _
      exfalso
      rcases List.exists_mem_of_ne_nil _ hidx with ⟨j, hj⟩
      have hjf := List.mem_filter.mp hj
      exact hdisj j hjf.1 (contains_iff_mem_nat.mp hjf.2)
    · intro hdisj _ _
      exfalso
      rcases List.exists_mem_of_ne_nil _ hidx with ⟨j, hj⟩
      have hjf := List.mem_filter.mp hj
      exact hdisj j hjf.1 (contains_iff_mem_nat.mp hjf.2)
    · intro hcon _
      exfalso
      rw [hcon] at hidx
      simp at hidx

/-- Witness for C3: two candidates, disjoint filter sets, sentiment wins. -/
theorem c3_fallback_chain_witness :
    ((["a", "b"] : List String) ≠ [] ∧
     (∀ j ∈ [0], j < (["a", "b"] : List String).length ∧ j < ([(1 : ℝ), 2] : List ℝ).length) ∧
     (∀ j ∈ [1], j < (["a", "b"] : List String).length ∧ j < ([(1 : ℝ), 2] : List ℝ).length)) ∧
    (∃ cs ss, poolFor ["a", "b"] [(1 : ℝ), 2] [0] [1] = Except.ok (cs, ss) ∧ cs ≠ [] ∧
      ((∃ j ∈ [0], j ∈ [1]) →
        cs = (([0] : List Nat).filter (fun j => ([1] : List Nat).contains j)).map
          (fun j => (["a", "b"] : List String).getD j "") ∧
        ss = (([0] : List Nat).filter (fun j => ([1] : List Nat).contains j)).map
          (fun j => ([(1 : ℝ), 2] : List ℝ).getD j 0)) ∧
      ((∀ j ∈ [0], j ∉ ([1] : List Nat)) → ([1] : List Nat) ≠ [] →
        cs = ([1] : List Nat).map (fun j => (["a", "b"] : List String).getD j "") ∧
        ss = ([1] : List Nat).map (fun j => ([(1 : ℝ), 2] : List ℝ).getD j 0)) ∧
      ((∀ j ∈ [0], j ∉ ([1] : List Nat)) → ([1] : List Nat) = [] → ([0] : List Nat) ≠ [] →
        cs = ([0] : List Nat).map (fun j => (["a", "b"] : List String).getD j "") ∧
        ss = ([0] : List Nat).map (fun j => ([(1 : ℝ), 2] : List ℝ).getD j 0)) ∧
      (([0] : List Nat) = [] → ([1] : List Nat) = [] →
        cs = ["a", "b"] ∧ ss = [(1 : ℝ), 2])) :=
  ⟨⟨by simp, by simp, by simp⟩,
   c3_fallback_chain ["a", "b"] [(1 : ℝ), 2] [0] [1] (by simp) (by simp) (by simp)⟩

/-! ### Claim C9 -/

theorem intentFilterE_zero (last : String) (resp : List String) :
    intentFilterE last resp 0 = Except.ok [] := by
  unfold intentFilterE
  split
  · rw [if_pos (Nat.zero_le _)]
    rfl
  · split
    · rw [if_pos (Nat.zero_le _)]
      rfl
    · rfl

theorem sentimentFilterE_zero (last : String) (resp : List String) :
    sentimentFilterE last resp 0 = Except.ok [] := by
  unfold sentimentFilterE
  rw [if_pos (Nat.zero_le _)]
  congr 1
  split
  · rfl
  · split
    · rfl
    · split
      · rfl
      · split <;> rfl

theorem poolFor_empty (scores_i : List ℝ) : poolFor [] scores_i [] [] = Except.ok ([], scores_i) := by
  unfold poolFor
  simp

/-- On an element whose candidate list is empty both filters return the empty
index set, the fallback pool is the empty candidate list itself, and
`np.random.choice` raises `ValueError`; the tag bounds only guard the two
earlier tag reads. -/
theorem processElement_empty (cfg : RerankCfg) (c : Nat) (scores_i : List ℝ)
    (sent_i ints_i : List String)
    (hints : cfg.num_context_turns - 1 < ints_i.length)
    (hsent : cfg.num_context_turns - 1 < sent_i.length) :
    processElement cfg c [] scores_i sent_i ints_i = Except.error Err.valueError := by
  unfold processElement
  simp only [List.getElem?_eq_getElem hints, List.getElem?_eq_getElem hsent, List.length_nil,
    intentFilterE_zero, sentimentFilterE_zero, poolFor_empty, normWeights_length, if_pos]

/-- On an element with an empty candidate list `processElement` never
succeeds (it raises `ValueError` from the empty sampling pool, or
`IndexError` earlier if a tag read is out of range). -/
theorem processElement_empty_ne_ok (cfg : RerankCfg) (c : Nat) (scores_i : List ℝ)
    (sent_i ints_i : List String) (pr : String × ℝ) :
    processElement cfg c [] scores_i sent_i ints_i ≠ Except.ok pr := by
  intro hcon
  unfold processElement at hcon
  split at hcon
  · exact Except.noConfusion hcon
  · split at hcon
    · exact Except.noConfusion hcon
    · rename_i fI heqI
      split at hcon
      · exact Except.noConfusion hcon
      · split at hcon
        · exact Except.noConfusion hcon
        · rename_i fS heqS
          rw [List.length_nil, intentFilterE_zero] at heqI
          rw [List.length_nil, sentimentFilterE_zero] at heqS
          injection heqI with hI
          injection heqS with hS
          subst hI hS
          split at hcon
          · exact Except.noConfusion hcon
          · rename_i pool heqP
            rw [poolFor_empty] at heqP
            injection heqP with hP
            subst hP
            simp [normWeights_length] at hcon

theorem getD_range {i n : Nat} (h : i < n) : (List.range n).getD i 0 = i := by
  rw [List.getD_eq_getElem?_getD, List.getElem?_eq_getElem (by simpa using h), List.getElem_range]
  rfl

/-- Inversion of the batch loop: a successful run produced one result per
loop index, each by a successful `processElement` on the looked-up lists. -/
theorem runBatch_ok_spec (cfg : RerankCfg) (choice : Nat → Nat) (top : List (List String))
    (scoresB : List (List ℝ)) (rS rI : List (List String)) :
    ∀ (l : List Nat) (prs : List (String × ℝ)),
      runBatch cfg choice top scoresB rS rI l = Except.ok prs →
      prs.length = l.length ∧
      ∀ k, k < l.length →
        ∃ ints_i top_i sent_i scores_i,
          rI[l.getD k 0]? = some ints_i ∧ top[l.getD k 0]? = some top_i ∧
          rS[l.getD k 0]? = some sent_i ∧ scoresB[l.getD k 0]? = some scores_i ∧
          processElement cfg (choice (l.getD k 0)) top_i scores_i sent_i ints_i =
            Except.ok (prs.getD k ("", 0)) := by
  intro l
  induction l with
  | nil =>
    intro prs h
    unfold runBatch at h
    injection h with h1
    refine ⟨by simp [← h1], ?_⟩
    intro k hk
    exact absurd hk (by simp)
  | cons a rest ih =>
    intro prs h
    unfold runBatch at h
    split at h
    · exact Except.noConfusion h
    · rename_i ints_i heqI
      split at h
      · rename_i top_i sent_i scores_i heqT heqS heqSc
        split at h
        · exact Except.noConfusion h
        · rename_i pr heqP
          split at h
          · exact Except.noConfusion h
          · rename_i prs2 heqR
            injection h with h1
            subst h1
            obtain ⟨ihlen, ihk⟩ := ih prs2 heqR
            refine ⟨by simp [ihlen], ?_⟩
            intro k hk
            cases k with
            | zero =>
              refine ⟨ints_i, top_i, sent_i, scores_i, ?_, ?_, ?_, ?_, ?_⟩
              · simpa using heqI
              · simpa using heqT
              · simpa using heqS
              · simpa using heqSc
              · simpa using heqP
            | succ k2 =>
              have hk2 : k2 < rest.length := by simpa using hk
              obtain ⟨A, B, C, D, h1, h2, h3, h4, h5⟩ := ihk k2 hk2
              refine ⟨A, B, C, D, ?_, ?_, ?_, ?_, ?_⟩
              · simpa using h1
              · simpa using h2
              · simpa using h3
              · simpa using h4
              · simpa using h5
      · exact Except.noConfusion h

/-! ### Claim C9 -/

/-- C9: if some batch element has an empty original candidate list, `rerank`
never returns a result; and on such an element (with the tag reads in range)
the failure is precisely the `ValueError` that `np.random.choice` raises for
an empty pool, not a sample from nothing. -/
theorem c9_empty_candidates_fail (cfg : RerankCfg) (choice : Nat → Nat)
    (top : List (List String)) (scoresB : List (List ℝ)) (sentiment intents : List String)
    (i : Nat) (hi : i < top.length) (hempty : top[i]? = some []) :
    (∀ res, rerank cfg choice top scoresB sentiment intents ≠ Except.ok res) ∧
    (∀ c scores_i sent_i ints_i,
      cfg.num_context_turns - 1 < List.length (ints_i : List String) →
      cfg.num_context_turns - 1 < List.length (sent_i : List String) →
      processElement cfg c [] scores_i sent_i ints_i = Except.error Err.valueError) := by
  constructor
  · intro res hcon
    unfold rerank at hcon
    split at hcon
    · exact Except.noConfusion hcon
    · split at hcon
      · exact Except.noConfusion hcon
      · split at hcon
        · exact Except.noConfusion hcon
        · rename_i prs heqR
          obtain ⟨_, hk⟩ := runBatch_ok_spec _ _ _ _ _ _ _ _ heqR
          have hi2 : i < (List.range top.length).length := by simpa using hi
          obtain ⟨ints_i, top_i, sent_i, scores_i, h1, h2, h3, h4, h5⟩ := hk i hi2
          rw [getD_range hi] at h2 h5
          rw [hempty] at h2
          injection h2 with h2
          rw [← h2] at h5
          exact processElement_empty_ne_ok _ _ _ _ _ _ h5
  · intro c scores_i sent_i ints_i h1 h2
    exact processElement_empty cfg c scores_i sent_i ints_i h1 h2

/-- Witness for C9: a one-element batch whose candidate list is empty. -/
theorem c9_empty_candidates_fail_witness :
    (0 < ([([] : List String)] : List (List String)).length ∧
      ([([] : List String)] : List (List String))[0]? = some []) ∧
    ((∀ res, rerank ⟨1, 10⟩ (fun _ => 0) [[]] [[]] ["neutral"] ["declarative"] ≠
        Except.ok res) ∧
     (∀ c scores_i sent_i ints_i,
        (⟨1, 10⟩ : RerankCfg).num_context_turns - 1 < List.length (ints_i : List String) →
        (⟨1, 10⟩ : RerankCfg).num_context_turns - 1 < List.length (sent_i : List String) →
        processElement ⟨1, 10⟩ c [] scores_i sent_i ints_i = Except.error Err.valueError)) :=
  ⟨⟨by simp, rfl⟩,
   c9_empty_candidates_fail ⟨1, 10⟩ (fun _ => 0) [[]] [[]] ["neutral"] ["declarative"]
     0 (by simp) rfl⟩


/-! ### Claim C8 -/

theorem getD_mem_of_lt {α : Type} (l : List α) (d : α) {j : Nat} (h : j < l.length) :
    l.getD j d ∈ l := by
  rw [List.getD_eq_getElem?_getD, List.getElem?_eq_getElem h]
  exact List.getElem_mem h

theorem getD_eq_getElem_of_lt {α : Type} (l : List α) (d : α) {j : Nat} (h : j < l.length) :
    l.getD j d = l[j] := by
  rw [List.getD_eq_getElem?_getD, List.getElem?_eq_getElem h]
  rfl

/-- Inversion of `buildPool`: on success the pool lists are the candidate and
score entries at the (in-range) selected indices. -/
theorem buildPool_ok_spec (top_i : List String) (scores_i : List ℝ) (idxs : List Nat)
    (pool : List String × List ℝ) (h : buildPool top_i scores_i idxs = Except.ok pool) :
    (∀ j ∈ idxs, j < top_i.length ∧ j < scores_i.length) ∧
    pool.1 = idxs.map (fun j => top_i.getD j "") ∧
    pool.2 = idxs.map (fun j => scores_i.getD j 0) := by
  unfold buildPool at h
  split at h
  · rename_i h2
    split at h
    · rename_i h3
      injection h with h1
      refine ⟨?_, by rw [← h1], by rw [← h1]⟩
      intro j hj
      exact ⟨of_decide_eq_true (List.all_eq_true.mp h2 j hj),
             of_decide_eq_true (List.all_eq_true.mp h3 j hj)⟩
    · exact Except.noConfusion h
  · exact Except.noConfusion h

/-- Inversion of `poolFor`: the pool is either an index-selected sub-pool or
the untouched original pair. -/
theorem poolFor_ok_spec (top_i : List String) (scores_i : List ℝ) (fI fS : List Nat)
    (pool : List String × List ℝ) (h : poolFor top_i scores_i fI fS = Except.ok pool) :
    (∃ idxs : List Nat, (∀ j ∈ idxs, j < top_i.length ∧ j < scores_i.length) ∧
      pool.1 = idxs.map (fun j => top_i.getD j "") ∧
      pool.2 = idxs.map (fun j => scores_i.getD j 0)) ∨
    (pool.1 = top_i ∧ pool.2 = scores_i) := by
  unfold poolFor at h
  split at h
  · exact Or.inl ⟨_, buildPool_ok_spec _ _ _ _ h⟩
  · split at h
    · exact Or.inl ⟨_, buildPool_ok_spec _ _ _ _ h⟩
    · split at h
      · exact Or.inl ⟨_, buildPool_ok_spec _ _ _ _ h⟩
      · injection h with h1
        exact Or.inr ⟨by rw [← h1], by rw [← h1]⟩

/-- Inversion of one loop body: a successful element came from some original
candidate position `j`, with the response and the score taken at that same
position of the original parallel lists. -/
theorem processElement_ok_spec (cfg : RerankCfg) (c : Nat) (top_i : List String)
    (scores_i : List ℝ) (sent_i ints_i : List String) (pr : String × ℝ)
    (h : processElement cfg c top_i scores_i sent_i ints_i = Except.ok pr) :
    ∃ j, j < top_i.length ∧ j < scores_i.length ∧
      pr.1 = top_i.getD j "" ∧ pr.2 = scores_i.getD j 0 := by
  unfold processElement at h
  split at h
  · exact Except.noConfusion h
  · split at h
    · exact Except.noConfusion h
    · split at h
      · exact Except.noConfusion h
      · split at h
        · exact Except.noConfusion h
        · split at h
          · exact Except.noConfusion h
          · rename_i pool heqPool
            split at h
            · exact Except.noConfusion h
            · split at h
              · rename_i r s heq1 heq2
                injection h with h1
                subst h1
                set ch := c % (normWeights pool.1.length cfg.lambda_coeff).length with hch
                have hlt1 := (List.getElem?_eq_some.mp heq1).1
                have hlt2 := (List.getElem?_eq_some.mp heq2).1
                have hr : pool.1.getD ch "" = r := by
                  rw [List.getD_eq_getElem?_getD, heq1]
                  rfl
                have hs : pool.2.getD ch 0 = s := by
                  rw [List.getD_eq_getElem?_getD, heq2]
                  rfl
                rcases poolFor_ok_spec _ _ _ _ _ heqPool with ⟨idxs, hb, e1, e2⟩ | ⟨e1, e2⟩
                · rw [e1] at hlt1 hr
                  rw [e2] at hlt2 hs
                  rw [List.length_map] at hlt1 hlt2
                  rw [getD_map_of_lt _ _ _ 0 hlt1] at hr
                  rw [getD_map_of_lt _ _ _ 0 hlt2] at hs
                  refine ⟨idxs.getD ch 0, ?_, ?_, hr.symm, hs.symm⟩
                  · exact (hb _ (getD_mem_of_lt _ _ hlt1)).1
                  · exact (hb _ (getD_mem_of_lt _ _ hlt1)).2
                · rw [e1] at hlt1 hr
                  rw [e2] at hlt2 hs
                  exact ⟨ch, hlt1, hlt2, hr.symm, hs.symm⟩
              · exact Except.noConfusion h

/-- C8: on any successful rerank call the two output lists are as long as the
input batch, and each returned response is a member of its element's
candidate list with the returned score taken from the same original position
of that element's score list. -/
theorem c8_output_correspondence (cfg : RerankCfg) (choice : Nat → Nat)
    (top : List (List String)) (scoresB : List (List ℝ)) (sentiment intents : List String)
    (rs : List String) (ss : List ℝ)
    (h : rerank cfg choice top scoresB sentiment intents = Except.ok (rs, ss)) :
    rs.length = top.length ∧ ss.length = top.length ∧
    ∀ i, i < top.length →
      rs.getD i "" ∈ top.getD i [] ∧
      ∃ j, j < (top.getD i []).length ∧ j < (scoresB.getD i []).length ∧
        rs.getD i "" = (top.getD i []).getD j "" ∧
        ss.getD i 0 = (scoresB.getD i []).getD j 0 := by
  unfold rerank at h
  split at h
  · exact Except.noConfusion h
  · split at h
    · exact Except.noConfusion h
    · split at h
      · exact Except.noConfusion h
      · rename_i prs heqR
        injection h with h1
        injection h1 with hrs hss
        obtain ⟨hlen, hk⟩ := runBatch_ok_spec _ _ _ _ _ _ _ _ heqR
        rw [List.length_range] at hlen
        have hrslen : rs.length = top.length := by rw [← hrs, List.length_map, hlen]
        have hsslen : ss.length = top.length := by rw [← hss, List.length_map, hlen]
        refine ⟨hrslen, hsslen, ?_⟩
        intro i hi
        have hi2 : i < (List.range top.length).length := by simpa using hi
        obtain ⟨ints_i, top_i, sent_i, scores_i, h1, h2, h3, h4, h5⟩ := hk i hi2
        rw [getD_range hi] at h2 h4 h5
        have htop : top.getD i [] = top_i := by
          rw [List.getD_eq_getElem?_getD, h2]
          rfl
        have hsc : scoresB.getD i [] = scores_i := by
          rw [List.getD_eq_getElem?_getD, h4]
          rfl
        have hprs : i < prs.length := by rw [hlen]; exact hi
        have hrsi : rs.getD i "" = (prs.getD i ("", 0)).1 := by
          rw [← hrs]
          exact getD_map_of_lt _ _ _ ("", 0) hprs
        have hssi : ss.getD i 0 = (prs.getD i ("", 0)).2 := by
          rw [← hss]
          exact getD_map_of_lt _ _ _ ("", 0) hprs
        obtain ⟨j, hj1, hj2, hj3, hj4⟩ := processElement_ok_spec _ _ _ _ _ _ _ h5
        refine ⟨?_, j, ?_, ?_, ?_, ?_⟩
        · rw [hrsi, hj3, htop]
          exact getD_mem_of_lt _ _ hj1
        · rw [htop]
          exact hj1
        · rw [hsc]
          exact hj2
        · rw [hrsi, hj3, htop]
        · rw [hssi, hj4, hsc]

/-- Witness for C8: a one-element batch with two candidates; the sampler
picks index 0 and the outputs line up with candidate/score position 0. -/
theorem c8_output_correspondence_witness :
    rerank ⟨1, 10⟩ (fun _ => 0) [["x", "y"]] [[(5 : ℝ), 6]]
        ["neutral", "neutral", "neutral"] ["declarative", "declarative", "declarative"] =
      Except.ok (["x"], [(5 : ℝ)]) ∧
    ((["x"] : List String).length = ([["x", "y"]] : List (List String)).length ∧
     ([(5 : ℝ)] : List ℝ).length = ([["x", "y"]] : List (List String)).length ∧
     ∀ i, i < ([["x", "y"]] : List (List String)).length →
       (["x"] : List String).getD i "" ∈ ([["x", "y"]] : List (List String)).getD i [] ∧
       ∃ j, j < (([["x", "y"]] : List (List String)).getD i []).length ∧
         j < (([[(5 : ℝ), 6]] : List (List ℝ)).getD i []).length ∧
         (["x"] : List String).getD i "" =
           (([["x", "y"]] : List (List String)).getD i []).getD j "" ∧
         ([(5 : ℝ)] : List ℝ).getD i 0 = (([[(5 : ℝ), 6]] : List (List ℝ)).getD i []).getD j 0) :=
  ⟨rfl, c8_output_correspondence ⟨1, 10⟩ (fun _ => 0) [["x", "y"]] [[(5 : ℝ), 6]]
    ["neutral", "neutral", "neutral"] ["declarative", "declarative", "declarative"]
    ["x"] [(5 : ℝ)] rfl⟩


/-! ### Claim C2 -/

/-- C2 (code bug): on a two-query batch the denominator of the similarity is
the Frobenius norm of the whole batch (`linalg.norm(q_vects)` is called with
no `axis`), so the "cosine similarity" computed between query `[3,4]` and
training vector `[1,0]` is `3/13` — `13 = ‖[[3,4],[12,0]]‖_F` — while the
cosine similarity claimed by the spec is `3/5`. -/
theorem c2_similarity_uses_batch_norm :
    ((codeCosSim [[3, 4], [12, 0]] [[1, 0]]).getD 0 []).getD 0 0 = 3 / 13 ∧
    cosineSim [3, 4] [1, 0] = 3 / 5 ∧
    ((3 : ℝ) / 13) ≠ 3 / 5 := by
  have hsum169 : (([[3, 4], [12, 0]] : List (List ℝ)).map sumSq).sum = 169 := by
    norm_num [sumSq]
  have hfrob : frobNorm [[3, 4], [12, 0]] = 13 := by
    rw [frobNorm, hsum169, show (169 : ℝ) = 13 ^ 2 by norm_num,
      Real.sqrt_sq (by norm_num : (0 : ℝ) ≤ 13)]
  have hn10 : norm2 [(1 : ℝ), 0] = 1 := by
    rw [norm2, show sumSq [(1 : ℝ), 0] = 1 by norm_num [sumSq], Real.sqrt_one]
  have hn34 : norm2 [(3 : ℝ), 4] = 5 := by
    rw [norm2, show sumSq [(3 : ℝ), 4] = 25 by norm_num [sumSq],
      show (25 : ℝ) = 5 ^ 2 by norm_num, Real.sqrt_sq (by norm_num : (0 : ℝ) ≤ 5)]
  have hdot : dot [(3 : ℝ), 4] [(1 : ℝ), 0] = 3 := by
    norm_num [dot]
  refine ⟨?_, ?_, by norm_num⟩
  · simp only [codeCosSim, List.map_cons, List.map_nil, List.getD_cons_zero]
    rw [hdot, hfrob, hn10]
    norm_num
  · rw [cosineSim, hdot, hn34, hn10]
    norm_num

/-! ### Claim C6 -/

/-- C6 (code bug): with a fitted one-vector training set and label list
`["A"]`, a batch of `None` sentinel queries does not get ranked results: the
1-dimensional zero similarity vector built on line 72 is indexed
2-dimensionally on line 80 and the call raises `IndexError`. -/
theorem c6_none_queries_crash :
    classify ⟨1, some [[1, 0]], some ["A"]⟩ [Vec.empty] = Except.error Err.indexError := rfl


/-! ### Claim C1 -/

theorem norm2_eval (v : List ℝ) (a : ℝ) (h : sumSq v = a ^ 2) (ha : 0 ≤ a) : norm2 v = a := by
  rw [norm2, h, Real.sqrt_sq ha]

theorem listMax_single (x : ℝ) : listMax [x] = x := rfl

theorem frobNorm_single (q : List ℝ) : frobNorm [q] = norm2 q := by
  rw [frobNorm, norm2]
  simp

theorem labelIdxs_lt (ys : List String) (lab : String) :
    ∀ j ∈ labelIdxs ys lab, j < ys.length := by
  intro j hj
  have := (List.mem_filter.mp hj).1
  simpa using this

/-- On a single-query batch the similarity row handed to the label-scoring
step consists of true cosine similarities: the batch Frobenius norm of one
query is that query's norm. -/
theorem labelsScores_single (q : List ℝ) (xt : List (List ℝ)) (ytr : List String)
    (hlen : ytr.length ≤ xt.length) :
    labelsScores (codeCosSim [q] xt) ytr =
      [(uniqueLabels ytr).map (specLabelMax q xt ytr)] := by
  rw [labelsScores]
  simp only [codeCosSim, List.map_cons, List.map_nil]
  congr 1
  apply List.map_congr_left
  intro lab _
  rw [specLabelMax]
  congr 1
  apply List.map_congr_left
  intro j hj
  have hjx : j < xt.length := lt_of_lt_of_le (labelIdxs_lt ytr lab j hj) hlen
  rw [getD_map_of_lt _ _ _ [] hjx, cosineSim, frobNorm_single]

/-- Normalization of a one-row matrix divides the row by its own sum
(the `(1, nl) / (1,)` numpy broadcast). -/
theorem normalizeScores_single (r : List ℝ) :
    normalizeScores [r] = Except.ok [r.map (fun x => x / r.sum)] := by
  simp [normalizeScores]

/-- C1 amended: for a single-query batch (where the whole-batch norm is the
query's own norm and the `(1, nl) / (1,)` division broadcasts correctly) the
pre-rounding, per-distinct-label scores are exactly the per-label max cosine
similarities divided by their sum, and they sum to 1 whenever that sum is
nonzero.  The norm hypotheses pin the statement to the regime where exact
real arithmetic is faithful to the floating-point code (no 0/0). -/
theorem c1_single_query_scores (q : List ℝ) (xt : List (List ℝ)) (ytr : List String)
    (hlen : ytr.length ≤ xt.length)
    (hq : norm2 q ≠ 0) (ht : ∀ t ∈ xt, norm2 t ≠ 0)
    (hsum : ((uniqueLabels ytr).map (specLabelMax q xt ytr)).sum ≠ 0) :
    normalizeScores (labelsScores (codeCosSim [q] xt) ytr) =
      Except.ok [specScores q xt ytr] ∧
    (specScores q xt ytr).sum = 1 := by
  have hspec : specScores q xt ytr =
      ((uniqueLabels ytr).map (specLabelMax q xt ytr)).map
        (fun x => x / ((uniqueLabels ytr).map (specLabelMax q xt ytr)).sum) := by
    rw [specScores, List.map_map]
    rfl
  constructor
  · rw [labelsScores_single q xt ytr hlen, normalizeScores_single, hspec]
  · rw [hspec, sum_map_div, div_self hsum]

theorem normalizeScores_two (a b c d : ℝ) :
    normalizeScores [[a, b], [c, d]] =
      Except.ok [[a / (a + b), b / (c + d)], [c / (a + b), d / (c + d)]] := by
  simp [normalizeScores, show List.range 2 = [0, 1] from rfl]

theorem labelsScores_twoAB (a b c d : ℝ) :
    labelsScores [[a, b], [c, d]] ["A", "B"] = [[a, b], [c, d]] := by
  rw [labelsScores]
  simp only [show uniqueLabels ["A", "B"] = ["A", "B"] from rfl,
    show labelIdxs ["A", "B"] "A" = [0] from rfl,
    show labelIdxs ["A", "B"] "B" = [1] from rfl,
    List.map_cons, List.map_nil, List.getD_cons_zero, List.getD_cons_succ, listMax_single]

/-- C1 counterexample: with queries `[3,4]` and `[0,1]` against unit training
vectors labelled A and B, the number of queries equals the number of distinct
labels, so the broadcast divides row 0 by row 1's sum at label B: the first
query's scores come out `[3/7, 4]` instead of `[3/7, 4/7]` — they do not sum
to 1 although the row sum is nonzero. -/
theorem c1_counterexample :
    normalizeScores (labelsScores (codeCosSim [[3, 4], [0, 1]] [[1, 0], [0, 1]]) ["A", "B"]) =
      Except.ok [[3 / 7, 4], [0, 1]] ∧
    ((3 : ℝ) / 7 + 4) ≠ 1 := by
  have hs26 : Real.sqrt 26 ≠ 0 := ne_of_gt (Real.sqrt_pos.mpr (by norm_num))
  have hfrob : frobNorm [[3, 4], [0, 1]] = Real.sqrt 26 := by
    rw [frobNorm, show (([[3, 4], [0, 1]] : List (List ℝ)).map sumSq).sum = 26 by
      norm_num [sumSq]]
  have hn10 : norm2 [(1 : ℝ), 0] = 1 := norm2_eval _ 1 (by norm_num [sumSq]) (by norm_num)
  have hn01 : norm2 [(0 : ℝ), 1] = 1 := norm2_eval _ 1 (by norm_num [sumSq]) (by norm_num)
  have hcos : codeCosSim [[3, 4], [0, 1]] [[1, 0], [0, 1]] =
      [[3 / Real.sqrt 26, 4 / Real.sqrt 26], [0, 1 / Real.sqrt 26]] := by
    rw [codeCosSim]
    simp only [List.map_cons, List.map_nil, hfrob, hn10, hn01]
    norm_num [dot]
  refine ⟨?_, by norm_num⟩
  rw [hcos, labelsScores_twoAB, normalizeScores_two]
  have e1 : (3 / Real.sqrt 26) / (3 / Real.sqrt 26 + 4 / Real.sqrt 26) = 3 / 7 := by
    rw [div_add_div_same]
    field_simp
    ring
  have e2 : (4 / Real.sqrt 26) / ((0 : ℝ) + 1 / Real.sqrt 26) = 4 := by
    rw [zero_add]
    field_simp
  have e3 : (0 : ℝ) / (3 / Real.sqrt 26 + 4 / Real.sqrt 26) = 0 := zero_div _
  have e4 : (1 / Real.sqrt 26) / ((0 : ℝ) + 1 / Real.sqrt 26) = 1 := by
    rw [zero_add]
    exact div_self (by positivity)
  rw [e1, e2, e3, e4]

/-- Witness for C1 amended: one query `[2,0]`, training set `[[1,0],[0,1]]`
with labels A and B. -/
theorem c1_single_query_scores_witness :
    ((["A", "B"] : List String).length ≤ ([[1, 0], [0, 1]] : List (List ℝ)).length ∧
     norm2 [(2 : ℝ), 0] ≠ 0 ∧
     (∀ t ∈ ([[1, 0], [0, 1]] : List (List ℝ)), norm2 t ≠ 0) ∧
     ((uniqueLabels ["A", "B"]).map
        (specLabelMax [(2 : ℝ), 0] [[1, 0], [0, 1]] ["A", "B"])).sum ≠ 0) ∧
    (normalizeScores (labelsScores
        (codeCosSim [[(2 : ℝ), 0]] [[1, 0], [0, 1]]) ["A", "B"]) =
      Except.ok [specScores [(2 : ℝ), 0] [[1, 0], [0, 1]] ["A", "B"]] ∧
     (specScores [(2 : ℝ), 0] [[1, 0], [0, 1]] ["A", "B"]).sum = 1) := by
  have hn20 : norm2 [(2 : ℝ), 0] = 2 := norm2_eval _ 2 (by norm_num [sumSq]) (by norm_num)
  have hn10 : norm2 [(1 : ℝ), 0] = 1 := norm2_eval _ 1 (by norm_num [sumSq]) (by norm_num)
  have hn01 : norm2 [(0 : ℝ), 1] = 1 := norm2_eval _ 1 (by norm_num [sumSq]) (by norm_num)
  have h1 : (["A", "B"] : List String).length ≤ ([[1, 0], [0, 1]] : List (List ℝ)).length := by
    simp
  have h2 : norm2 [(2 : ℝ), 0] ≠ 0 := by rw [hn20]; norm_num
  have h3 : ∀ t ∈ ([[1, 0], [0, 1]] : List (List ℝ)), norm2 t ≠ 0 := by
    intro t htm
    simp only [List.mem_cons, List.not_mem_nil, or_false] at htm
    rcases htm with rfl | rfl
    · rw [hn10]; norm_num
    · rw [hn01]; norm_num
  have h4 : ((uniqueLabels ["A", "B"]).map
      (specLabelMax [(2 : ℝ), 0] [[1, 0], [0, 1]] ["A", "B"])).sum ≠ 0 := by
    simp only [show uniqueLabels ["A", "B"] = ["A", "B"] from rfl, List.map_cons, List.map_nil,
      specLabelMax, show labelIdxs ["A", "B"] "A" = [0] from rfl,
      show labelIdxs ["A", "B"] "B" = [1] from rfl,
      List.getD_cons_zero, List.getD_cons_succ, listMax_single, cosineSim, hn20, hn10, hn01]
    norm_num [dot]
  exact ⟨⟨h1, h2, h3, h4⟩, c1_single_query_scores _ _ _ h1 h2 h3 h4⟩


/-! ### Claim C5 -/

theorem keyLE_total (row : List ℝ) : ∀ i j, keyLE row i j ∨ keyLE row j i := by
  intro i j
  rcases lt_trichotomy (row.getD i 0) (row.getD j 0) with h | h | h
  · exact Or.inl (Or.inl h)
  · rcases Nat.le_total i j with hij | hij
    · exact Or.inl (Or.inr ⟨h, hij⟩)
    · exact Or.inr (Or.inr ⟨h.symm, hij⟩)
  · exact Or.inr (Or.inl h)

theorem keyLE_trans (row : List ℝ) :
    ∀ i j k, keyLE row i j → keyLE row j k → keyLE row i k := by
  intro i j k hij hjk
  rcases hij with h1 | ⟨h1, h1'⟩ <;> rcases hjk with h2 | ⟨h2, h2'⟩
  · exact Or.inl (h1.trans h2)
  · exact Or.inl (h2 ▸ h1)
  · exact Or.inl (h1 ▸ h2)
  · exact Or.inr ⟨h1.trans h2, h1'.trans h2'⟩

open Classical in
theorem argsortR_sorted (row : List ℝ) : List.Sorted (keyLE row) (argsortR row) := by
  rw [argsortR]
  haveI : IsTotal Nat (keyLE row) := ⟨keyLE_total row⟩
  haveI : IsTrans Nat (keyLE row) := ⟨keyLE_trans row⟩
  exact List.sorted_insertionSort _ _

open Classical in
theorem argsortR_perm (row : List ℝ) : (argsortR row).Perm (List.range row.length) := by
  rw [argsortR]
  exact List.perm_insertionSort _ _

theorem argsortR_nodup (row : List ℝ) : (argsortR row).Nodup :=
  (argsortR_perm row).nodup_iff.mpr (List.nodup_range _)

theorem argsortR_length (row : List ℝ) : (argsortR row).length = row.length := by
  rw [(argsortR_perm row).length_eq, List.length_range]

theorem argsortR_mem (row : List ℝ) : ∀ i ∈ argsortR row, i < row.length := by
  intro i hi
  have := (argsortR_perm row).mem_iff.mp hi
  simpa using this

theorem sliceNeg_sublist (l : List α) (k : Nat) : (sliceNeg l k).Sublist l := by
  rw [sliceNeg]
  split
  · exact List.Sublist.refl _
  · exact List.drop_sublist _ _

theorem sliceNeg_length (l : List α) (k : Nat) (hk : 1 ≤ k) :
    (sliceNeg l k).length = min k l.length := by
  rw [sliceNeg, if_neg (by omega), List.length_drop]
  omega

theorem topIds_pairwise (row : List ℝ) (n : Nat) :
    List.Pairwise (fun a b => keyLE row b a) (topIds row n) := by
  rw [topIds]
  rw [List.pairwise_reverse]
  exact List.Pairwise.sublist (sliceNeg_sublist _ _) (argsortR_sorted row)

theorem topIds_nodup (row : List ℝ) (n : Nat) : (topIds row n).Nodup := by
  rw [topIds, List.nodup_reverse]
  exact List.Nodup.sublist (sliceNeg_sublist _ _) (argsortR_nodup row)

theorem topIds_mem (row : List ℝ) (n : Nat) : ∀ i ∈ topIds row n, i < row.length := by
  intro i hi
  rw [topIds, List.mem_reverse] at hi
  exact argsortR_mem row i (List.Sublist.mem hi (sliceNeg_sublist _ _))

theorem topIds_length (row : List ℝ) (n : Nat) (hn : 1 ≤ n) :
    (topIds row n).length = min n row.length := by
  rw [topIds, List.length_reverse, sliceNeg_length _ _ hn, argsortR_length]

/-- The selected positions are strictly ordered: strictly decreasing score,
with equal scores broken by strictly decreasing label position. -/
theorem topIds_strict (row : List ℝ) (n : Nat) :
    ∀ a b, a < b → b < (topIds row n).length →
      row.getD ((topIds row n).getD a 0) 0 > row.getD ((topIds row n).getD b 0) 0 ∨
      (row.getD ((topIds row n).getD a 0) 0 = row.getD ((topIds row n).getD b 0) 0 ∧
        (topIds row n).getD a 0 > (topIds row n).getD b 0) := by
  intro a b hab hb
  have ha : a < (topIds row n).length := lt_trans hab hb
  have hpair := List.pairwise_iff_getElem.mp (topIds_pairwise row n) a b ha hb hab
  have hne : (topIds row n)[a] ≠ (topIds row n)[b] :=
    List.pairwise_iff_getElem.mp (topIds_nodup row n) a b ha hb hab
  rw [getD_eq_getElem_of_lt _ _ ha, getD_eq_getElem_of_lt _ _ hb]
  rcases hpair with h | ⟨h, h'⟩
  · exact Or.inl h
  · refine Or.inr ⟨h.symm, ?_⟩
    omega


theorem stackRows_singleton_dense (q : List ℝ) :
    stackRows [Vec.dense q] (fun v => v.isDense) = Except.ok [q] := by
  simp [stackRows, Vec.isDense, Vec.row]

/-- Evaluation of `classifyCore` on a single-query batch: the guard on selected label
positions always holds, and the outputs are the `topIds` selection applied to
the normalized single row. -/
theorem classifyCore_single (q : List ℝ) (xt : List (List ℝ)) (ytr : List String) (tn : Nat)
    (hlen : ytr.length ≤ xt.length) :
    classifyCore [q] xt ytr tn =
      Except.ok
        ([(topIds (((uniqueLabels ytr).map (specLabelMax q xt ytr)).map
            (fun x => x / ((uniqueLabels ytr).map (specLabelMax q xt ytr)).sum)) tn).map
              (fun id => (uniqueLabels ytr).getD id "")],
         [(topIds (((uniqueLabels ytr).map (specLabelMax q xt ytr)).map
            (fun x => x / ((uniqueLabels ytr).map (specLabelMax q xt ytr)).sum)) tn).map
              (fun id => round2 ((((uniqueLabels ytr).map (specLabelMax q xt ytr)).map
                (fun x => x / ((uniqueLabels ytr).map (specLabelMax q xt ytr)).sum)).getD id 0))]) := by
  have hguardall : (([((uniqueLabels ytr).map (specLabelMax q xt ytr)).map
        (fun x => x / ((uniqueLabels ytr).map (specLabelMax q xt ytr)).sum)].map
          (fun row => topIds row tn)).all
      (fun ids => ids.all (fun id => id < (uniqueLabels ytr).length))) = true := by
    rw [List.all_eq_true]
    intro ids hids
    simp only [List.map_cons, List.map_nil, List.mem_singleton] at hids
    subst hids
    rw [List.all_eq_true]
    intro id hid
    have hlt := topIds_mem _ tn id hid
    rw [List.length_map, List.length_map] at hlt
    exact decide_eq_true hlt
  simp only [classifyCore, if_neg (not_lt.mpr hlen), labelsScores_single q xt ytr hlen,
    normalizeScores_single]
  rw [if_pos hguardall]
  simp only [List.map_cons, List.map_nil]

/-- C5 amended: for a fitted state and a single dense query (nonzero norms,
nonzero score sum), `classify` succeeds and returns `min top_n nl` distinct
labels ordered by strictly descending normalized score, ties broken by
strictly DESCENDING position among the sorted distinct labels (the ascending
stable argsort is reversed by `[::-1]`); as a Lean function of its inputs the
selection is deterministic. -/
theorem c5_ordering (st : ClfState) (q : List ℝ) (xt : List (List ℝ)) (ytr : List String)
    (hx : st.x_train_features = some xt) (hy : st.y_train = some ytr)
    (hlen : ytr.length ≤ xt.length) (htn : 1 ≤ st.top_n)
    (hq : norm2 q ≠ 0) (ht : ∀ t ∈ xt, norm2 t ≠ 0)
    (hsum : ((uniqueLabels ytr).map (specLabelMax q xt ytr)).sum ≠ 0) :
    ∃ nrow ans scs,
      normalizeScores (labelsScores (codeCosSim [q] xt) ytr) = Except.ok [nrow] ∧
      classify st [Vec.dense q] = Except.ok ([ans], [scs]) ∧
      ans = (topIds nrow st.top_n).map (fun id => (uniqueLabels ytr).getD id "") ∧
      ans.length = min st.top_n (uniqueLabels ytr).length ∧
      (∀ a b, a < b → b < (topIds nrow st.top_n).length →
        nrow.getD ((topIds nrow st.top_n).getD a 0) 0 >
            nrow.getD ((topIds nrow st.top_n).getD b 0) 0 ∨
          (nrow.getD ((topIds nrow st.top_n).getD a 0) 0 =
              nrow.getD ((topIds nrow st.top_n).getD b 0) 0 ∧
            (topIds nrow st.top_n).getD a 0 > (topIds nrow st.top_n).getD b 0)) := by
  refine ⟨((uniqueLabels ytr).map (specLabelMax q xt ytr)).map
      (fun x => x / ((uniqueLabels ytr).map (specLabelMax q xt ytr)).sum),
    (topIds (((uniqueLabels ytr).map (specLabelMax q xt ytr)).map
      (fun x => x / ((uniqueLabels ytr).map (specLabelMax q xt ytr)).sum)) st.top_n).map
        (fun id => (uniqueLabels ytr).getD id ""),
    (topIds (((uniqueLabels ytr).map (specLabelMax q xt ytr)).map
      (fun x => x / ((uniqueLabels ytr).map (specLabelMax q xt ytr)).sum)) st.top_n).map
        (fun id => round2 ((((uniqueLabels ytr).map (specLabelMax q xt ytr)).map
          (fun x => x / ((uniqueLabels ytr).map (specLabelMax q xt ytr)).sum)).getD id 0)),
    ?_, ?_, rfl, ?_, ?_⟩
  · rw [labelsScores_single q xt ytr hlen, normalizeScores_single]
  · simp only [classify, List.getElem?_cons_zero, hx, hy, stackRows_singleton_dense]
    exact classifyCore_single q xt ytr st.top_n hlen
  · rw [List.length_map, topIds_length _ st.top_n htn, List.length_map, List.length_map]
  · intro a b hab hb
    exact topIds_strict _ st.top_n a b hab hb


theorem sqrt2_ne : Real.sqrt 2 ≠ 0 := ne_of_gt (Real.sqrt_pos.mpr (by norm_num))

theorem norm2_11 : norm2 [(1 : ℝ), 1] = Real.sqrt 2 := by
  rw [norm2, show sumSq [(1 : ℝ), 1] = 2 by norm_num [sumSq]]

theorem norm2_10 : norm2 [(1 : ℝ), 0] = 1 := norm2_eval _ 1 (by norm_num [sumSq]) (by norm_num)

theorem norm2_01 : norm2 [(0 : ℝ), 1] = 1 := norm2_eval _ 1 (by norm_num [sumSq]) (by norm_num)

theorem specLabelMax_11_A :
    specLabelMax [(1 : ℝ), 1] [[1, 0], [0, 1]] ["A", "B"] "A" = 1 / Real.sqrt 2 := by
  simp only [specLabelMax, show labelIdxs ["A", "B"] "A" = [0] from rfl, List.map_cons,
    List.map_nil, List.getD_cons_zero, listMax_single, cosineSim, norm2_11, norm2_10]
  norm_num [dot]

theorem specLabelMax_11_B :
    specLabelMax [(1 : ℝ), 1] [[1, 0], [0, 1]] ["A", "B"] "B" = 1 / Real.sqrt 2 := by
  simp only [specLabelMax, show labelIdxs ["A", "B"] "B" = [1] from rfl, List.map_cons,
    List.map_nil, List.getD_cons_zero, List.getD_cons_succ, listMax_single, cosineSim,
    norm2_11, norm2_01]
  norm_num [dot]

theorem nrow_11_eval :
    ((uniqueLabels ["A", "B"]).map (specLabelMax [(1 : ℝ), 1] [[1, 0], [0, 1]] ["A", "B"])).map
      (fun x => x /
        ((uniqueLabels ["A", "B"]).map (specLabelMax [(1 : ℝ), 1] [[1, 0], [0, 1]] ["A", "B"])).sum) =
    [1 / 2, 1 / 2] := by
  have he : (1 / Real.sqrt 2) / (1 / Real.sqrt 2 + (1 / Real.sqrt 2 + 0)) = 1 / 2 := by
    rw [add_zero, div_add_div_same]
    field_simp
    norm_num
  simp only [show uniqueLabels ["A", "B"] = ["A", "B"] from rfl, List.map_cons, List.map_nil,
    specLabelMax_11_A, specLabelMax_11_B, List.sum_cons, List.sum_nil, he]

theorem topIds_half_half : topIds [(1 : ℝ) / 2, 1 / 2] 2 = [1, 0] := by
  have hk : keyLE [(1 : ℝ) / 2, 1 / 2] 0 1 := Or.inr ⟨rfl, by norm_num⟩
  have hsort : argsortR [(1 : ℝ) / 2, 1 / 2] = [0, 1] := by
    rw [argsortR, show List.range ([(1 : ℝ) / 2, 1 / 2]).length = [0, 1] from rfl]
    simp only [List.insertionSort, List.orderedInsert]
    rw [if_pos hk]
  rw [topIds, hsort]
  rfl

theorem round2_half : round2 ((1 : ℝ) / 2) = 1 / 2 := by
  rw [round2]
  norm_num

/-- C5 counterexample: training set `[[1,0],[0,1]]` with labels A, B and
query `[1,1]` ties both labels at score `1/2`; with `top_n = 2` the code
returns `["B", "A"]` — the higher label position first — not the
`["A", "B"]` that ascending-index tie-breaking would give. -/
theorem c5_counterexample :
    classify ⟨2, some [[1, 0], [0, 1]], some ["A", "B"]⟩ [Vec.dense [1, 1]] =
      Except.ok ([["B", "A"]], [[1 / 2, 1 / 2]]) ∧
    (["B", "A"] : List String) ≠ ["A", "B"] := by
  constructor
  · simp only [classify, List.getElem?_cons_zero, stackRows_singleton_dense]
    rw [classifyCore_single [1, 1] [[1, 0], [0, 1]] ["A", "B"] 2 (by simp)]
    rw [nrow_11_eval, topIds_half_half]
    simp only [List.map_cons, List.map_nil, List.getD_cons_zero, List.getD_cons_succ,
      round2_half, show uniqueLabels ["A", "B"] = ["A", "B"] from rfl]
  · simp


theorem norm2_20 : norm2 [(2 : ℝ), 0] = 2 := norm2_eval _ 2 (by norm_num [sumSq]) (by norm_num)

theorem trainNorms_ne : ∀ t ∈ ([[1, 0], [0, 1]] : List (List ℝ)), norm2 t ≠ 0 := by
  intro t htm
  simp only [List.mem_cons, List.not_mem_nil, or_false] at htm
  rcases htm with rfl | rfl
  · rw [norm2_10]
    norm_num
  · rw [norm2_01]
    norm_num

theorem specSumAB_ne :
    ((uniqueLabels ["A", "B"]).map
      (specLabelMax [(2 : ℝ), 0] [[1, 0], [0, 1]] ["A", "B"])).sum ≠ 0 := by
  simp only [show uniqueLabels ["A", "B"] = ["A", "B"] from rfl, List.map_cons, List.map_nil,
    specLabelMax, show labelIdxs ["A", "B"] "A" = [0] from rfl,
    show labelIdxs ["A", "B"] "B" = [1] from rfl,
    List.getD_cons_zero, List.getD_cons_succ, listMax_single, cosineSim, norm2_20, norm2_10,
    norm2_01]
  norm_num [dot]

/-- Witness for C5 amended: `top_n = 1`, query `[2,0]`, training set
`[[1,0],[0,1]]` with labels A and B. -/
theorem c5_ordering_witness :
    ((⟨1, some [[1, 0], [0, 1]], some ["A", "B"]⟩ : ClfState).x_train_features =
        some [[1, 0], [0, 1]] ∧
     (⟨1, some [[1, 0], [0, 1]], some ["A", "B"]⟩ : ClfState).y_train = some ["A", "B"] ∧
     (["A", "B"] : List String).length ≤ ([[1, 0], [0, 1]] : List (List ℝ)).length ∧
     1 ≤ (⟨1, some [[1, 0], [0, 1]], some ["A", "B"]⟩ : ClfState).top_n ∧
     norm2 [(2 : ℝ), 0] ≠ 0 ∧
     (∀ t ∈ ([[1, 0], [0, 1]] : List (List ℝ)), norm2 t ≠ 0) ∧
     ((uniqueLabels ["A", "B"]).map
        (specLabelMax [(2 : ℝ), 0] [[1, 0], [0, 1]] ["A", "B"])).sum ≠ 0) ∧
    (∃ nrow ans scs,
      normalizeScores (labelsScores (codeCosSim [[(2 : ℝ), 0]] [[1, 0], [0, 1]]) ["A", "B"]) =
        Except.ok [nrow] ∧
      classify ⟨1, some [[1, 0], [0, 1]], some ["A", "B"]⟩ [Vec.dense [2, 0]] =
        Except.ok ([ans], [scs]) ∧
      ans = (topIds nrow (⟨1, some [[1, 0], [0, 1]], some ["A", "B"]⟩ : ClfState).top_n).map
          (fun id => (uniqueLabels ["A", "B"]).getD id "") ∧
      ans.length = min (⟨1, some [[1, 0], [0, 1]], some ["A", "B"]⟩ : ClfState).top_n
          (uniqueLabels ["A", "B"]).length ∧
      (∀ a b, a < b →
        b < (topIds nrow (⟨1, some [[1, 0], [0, 1]], some ["A", "B"]⟩ : ClfState).top_n).length →
        nrow.getD ((topIds nrow
              (⟨1, some [[1, 0], [0, 1]], some ["A", "B"]⟩ : ClfState).top_n).getD a 0) 0 >
            nrow.getD ((topIds nrow
              (⟨1, some [[1, 0], [0, 1]], some ["A", "B"]⟩ : ClfState).top_n).getD b 0) 0 ∨
          (nrow.getD ((topIds nrow
                (⟨1, some [[1, 0], [0, 1]], some ["A", "B"]⟩ : ClfState).top_n).getD a 0) 0 =
              nrow.getD ((topIds nrow
                (⟨1, some [[1, 0], [0, 1]], some ["A", "B"]⟩ : ClfState).top_n).getD b 0) 0 ∧
            (topIds nrow
                (⟨1, some [[1, 0], [0, 1]], some ["A", "B"]⟩ : ClfState).top_n).getD a 0 >
              (topIds nrow
                (⟨1, some [[1, 0], [0, 1]], some ["A", "B"]⟩ : ClfState).top_n).getD b 0))) :=
  ⟨⟨rfl, rfl, by simp, by norm_num, by rw [norm2_20]; norm_num, trainNorms_ne, specSumAB_ne⟩,
   c5_ordering ⟨1, some [[1, 0], [0, 1]], some ["A", "B"]⟩ [2, 0] [[1, 0], [0, 1]] ["A", "B"]
     rfl rfl (by simp) (by norm_num) (by rw [norm2_20]; norm_num) trainNorms_ne specSumAB_ne⟩

end
